import Mathlib

/-!
# ulissep4controller: the per-switch session supervisor

A shallow embedding of `controller/grpc_switch.go` (with the constants of
`controller/main.go`) and the properties of it that the specification states.

Modelling conventions.

* Go `byte` is `Fin 256`, `uint64` is `Fin (2 ^ 64)`, `uint16` values are naturals
  reduced `% 65536`, `int` is `Int`.
* A Go `error` is identified with its message; `Option Err` is an `error` that may be
  `nil`.
* The P4Runtime client, gRPC, TLS and the link source are external. Each call to them is
  recorded as an `Event` in the trace of the `World`, and its result is read from an
  environment (`Env`, `ackDigestList`), over which the theorems quantify.
* A method of `*GrpcSwitch` is a function `World → Exec α`: it returns, panics, or parks
  on a channel operation that cannot proceed unless another goroutine serves the channel.
* `go f()` is recorded as an event; the goroutine itself is modelled by the function `f`.
* Logging is not modelled, except the one log line that carries the decoded digest.
-/

namespace Controller

/-! ## Basic types -/

/-- Go `byte`. -/
abbrev Byte := Fin 256

/-- Go `uint64`. -/
abbrev Uint64 := Fin 18446744073709551616

/-- Go `error`, identified with its message. -/
abbrev Err := String

/-- Run-time panics reachable in the modelled code. -/
inductive Panic where
  | indexOutOfRange
  | nilDereference
  deriving DecidableEq, Repr

/-! ## Constants of `main.go` -/

def defaultPort : Nat := 50050

def defaultAddr : String := "127.0.0.1"

def digestName : String := "digest_t"

/-! ## Channels -/

/-- Buffered Go channel: `make(chan α, cap)` with the values not yet received. -/
structure Chan (α : Type) where
  cap : Nat
  buf : List α
  deriving DecidableEq, Repr

namespace Chan

/-- Go `make(chan α, cap)`. -/
def make {α : Type} (cap : Nat) : Chan α := ⟨cap, []⟩

/-- Go `c <- v` with no receiver waiting: it proceeds when the buffer has room, and
otherwise cannot proceed (`none`). -/
def trySend {α : Type} (c : Chan α) (v : α) : Option (Chan α) :=
  if c.buf.length < c.cap then some { c with buf := c.buf ++ [v] } else none

/-- Go `<-c`: it proceeds when a value is buffered, and otherwise cannot proceed. -/
def tryRecv {α : Type} (c : Chan α) : Option (α × Chan α) :=
  match c.buf with
  | [] => none
  | v :: rest => some (v, { c with buf := rest })

end Chan

/-! ## P4Runtime data -/

/-- The cases of `p4_v1.P4Data` that the controller inspects; `other` is every other
case of the oneof, and a nil pointer. -/
inductive P4Data where
  | bitstring (b : List Byte)
  | struct (members : List P4Data)
  | other

namespace P4Data

/-- Generated getter `GetStruct`: the members of a struct, `none` (nil) otherwise. -/
def GetStruct : P4Data → Option (List P4Data)
  | .struct members => some members
  | _ => none

/-- Generated getter `GetBitstring`: the bytes of a bitstring, nil (empty) otherwise. -/
def GetBitstring : P4Data → List Byte
  | .bitstring b => b
  | _ => []

end P4Data

/-- The part of `p4_v1.DigestList` the controller reads. -/
structure DigestList where
  digestId : Nat
  listId : Nat
  data : List P4Data

/-- The cases of `StreamMessageResponse.Update` that `handleStreamMessages` switches on. -/
inductive StreamMessage where
  | packet
  | digest (dl : DigestList)
  | idleTimeoutNotification
  | error (e : String)
  | unknown

/-- One element of `GetLinksBytes`. -/
structure Link where
  ip : List Byte
  mac : List Byte
  port : List Byte
  deriving DecidableEq, Repr

/-! ## The switch, the trace, and executions -/

/-- The modelled fields of `GrpcSwitch`. `errCh` is `none` while the field is nil. -/
structure GrpcSwitch where
  id : Uint64
  binBytes : List Byte
  p4infoBytes : List Byte
  ports : Int
  addr : String
  restarts : Int
  errCh : Option (Chan Err)

/-- The externally visible actions of a switch session. -/
inductive Event where
  | newClientTLS
  | dial (addr : String)
  | capabilities
  | goRun
  | setFwdPipe (bin p4info : List Byte) (cookie : Nat)
  | enableDigest (name : String)
  | insertTableEntry (ip mac port : List Byte)
  | ackDigestList (dl : DigestList)
  | logDigest (flow flowOpp : List Byte) (treshold : Nat)
  | sendErrCh (e : Err)
  | goHandleStreamMessages
  | goStartRunner
  | goReconnect
  | closeMessageCh
  | connClose

namespace Event

/-- Recognises the event that opens every `runSwitch` call. -/
def isNewClientTLS : Event → Bool
  | .newClientTLS => true
  | _ => false

/-- Recognises a call of `InsertTableEntry`. -/
def isInsertTableEntry : Event → Bool
  | .insertTableEntry _ _ _ => true
  | _ => false

/-- Recognises a call of `AckDigestList`. -/
def isAckDigestList : Event → Bool
  | .ackDigestList _ => true
  | _ => false

/-- Recognises `go sw.reconnect()`. -/
def isGoReconnect : Event → Bool
  | .goReconnect => true
  | _ => false

/-- Recognises what `runSwitch` does after arbitration is won: pipeline push, digest
enabling, table provisioning, and the start of the dispatcher and of the run loop. -/
def isPostArbitration : Event → Bool
  | .setFwdPipe _ _ _ => true
  | .enableDigest _ => true
  | .insertTableEntry _ _ _ => true
  | .goHandleStreamMessages => true
  | .goStartRunner => true
  | .goReconnect => true
  | _ => false

end Event

/-- A switch together with the actions performed on its behalf so far. -/
structure World where
  sw : GrpcSwitch
  trace : List Event

namespace World

/-- Record one action. -/
def emit (w : World) (ev : Event) : World := { w with trace := w.trace ++ [ev] }

/-- Number of `runSwitch` calls made so far. -/
def runSwitchCalls (w : World) : Nat := w.trace.countP Event.isNewClientTLS

end World

/-- How a method call ends: it returns, it panics, or it is parked on a channel operation
that cannot proceed in the state reached (it resumes only when another goroutine serves the
channel). -/
inductive Exec (α : Type) where
  | ret (a : α) (w : World)
  | blocked (w : World)
  | panic (p : Panic) (w : World)

namespace Exec

/-- The world in which the call ended. -/
def world {α : Type} : Exec α → World
  | .ret _ w => w
  | .blocked w => w
  | .panic _ w => w

/-- The call returned. -/
def returned {α : Type} : Exec α → Bool
  | .ret _ _ => true
  | _ => false

end Exec

/-! ## `createSwitch` -/

/-- Go `fmt.Sprintf("%s:%d", s, n)` for a string and an unsigned integer. -/
def sprintfAddr (s : String) (n : Nat) : String := s ++ ":" ++ Nat.repr n

/-- Source `createSwitch`. `defaultPort+deviceID` is `uint64` arithmetic; the fields the
literal omits take their zero value. -/
def createSwitch (deviceID : Uint64) (binBytes p4infoBytes : List Byte) (ports : Int) :
    GrpcSwitch :=
  { id := deviceID
    binBytes := binBytes
    p4infoBytes := p4infoBytes
    ports := ports
    addr := sprintfAddr defaultAddr ((defaultPort + deviceID.val) % 18446744073709551616)
    restarts := 0
    errCh := none }

/-! ## Reporting a fault -/

/-- The statement `sw.errCh <- err`. -/
def sendErrCh (err : Err) (w : World) : Exec Unit :=
  let w := w.emit (.sendErrCh err)
  match w.sw.errCh with
  | none => .blocked w
  | some ch =>
    match ch.trySend err with
    | none => .blocked w
    | some ch' => .ret () { w with sw := { w.sw with errCh := some ch' } }

/-! ## `handleDigest` -/

/-- Go `binary.BigEndian.Uint16`. -/
def Uint16 (b : List Byte) : Except Panic Nat :=
  match b with
  | b0 :: b1 :: _ => .ok ((b1.val % 65536) ||| ((b0.val % 65536) <<< 8) % 65536)
  | _ => .error .indexOutOfRange

/-- The `if len(tmp) == 1` statement of `handleDigest`, which sets `treshold`. -/
def treshold (tmp : List Byte) : Except Panic Nat :=
  if h : tmp.length = 1 then
    Uint16 [0, tmp.get ⟨0, by omega⟩]
  else
    Uint16 tmp

/-- Go `s.Members[i]`. -/
def index (members : List P4Data) (i : Nat) : Except Panic P4Data :=
  match members[i]? with
  | some m => .ok m
  | none => .error .indexOutOfRange

/-- The body of the `for` loop of `handleDigest`: the three logged fields. -/
def digestFields (digestData : P4Data) : Except Panic (List Byte × List Byte × Nat) :=
  match digestData.GetStruct with
  | none => .error .nilDereference
  | some members =>
    match index members 0 with
    | .error p => .error p
    | .ok m0 =>
      match index members 1 with
      | .error p => .error p
      | .ok m1 =>
        match index members 2 with
        | .error p => .error p
        | .ok m2 =>
          match treshold m2.GetBitstring with
          | .error p => .error p
          | .ok t => .ok (m0.GetBitstring, m1.GetBitstring, t)

/-- The `for` loop of `handleDigest`. -/
def handleDigestLoop : List P4Data → World → Exec Unit
  | [], w => .ret () w
  | digestData :: rest, w =>
    match digestFields digestData with
    | .error p => .panic p w
    | .ok (flow, flowOpp, t) => handleDigestLoop rest (w.emit (.logDigest flow flowOpp t))

/-- Source `handleDigest`; `ackDigestList` is the result of `sw.p4RtC.AckDigestList`. -/
def handleDigest (ackDigestList : DigestList → Option Err) (digestList : DigestList)
    (w : World) : Exec Unit :=
  match handleDigestLoop digestList.data w with
  | .ret () w =>
    let w := w.emit (.ackDigestList digestList)
    match ackDigestList digestList with
    | some err => sendErrCh err w
    | none => .ret () w
  | other => other

/-! ## `handleStreamMessages` -/

/-- The `switch` of `handleStreamMessages`, for one message. -/
def handleStreamMessage (ackDigestList : DigestList → Option Err) (message : StreamMessage)
    (w : World) : Exec Unit :=
  match message with
  | .packet => .ret () w
  | .digest dl => handleDigest ackDigestList dl w
  | .idleTimeoutNotification => .ret () w
  | .error e => sendErrCh ("StreamError: " ++ e) w
  | .unknown => .ret () w

/-- Source `handleStreamMessages`, over the messages that `messageCh` delivers before it
is closed. The deferred `conn.Close()` runs on return and on panic. -/
def handleStreamMessages (ackDigestList : DigestList → Option Err) :
    List StreamMessage → World → Exec Unit
  | [], w => .ret () (w.emit .connClose)
  | message :: rest, w =>
    match handleStreamMessage ackDigestList message w with
    | .ret () w => handleStreamMessages ackDigestList rest w
    | .panic p w => .panic p (w.emit .connClose)
    | .blocked w => .blocked w

/-! ## The environment of a session -/

/-- What `runSwitch` first observes on `arbitrationCh`: a signal, the channel closed with
no signal, or nothing at all. -/
inductive Arbitration where
  | signal (isPrimary : Bool)
  | closed
  | silent
  deriving DecidableEq, Repr

/-- The results of the external calls of one `runSwitch`. `getLinksBytes` stands for
`GetLinksBytes`, and `insertTableEntry n link` for the result of the `n`-th
`InsertTableEntry` of the call (counted from 0), made for `link`. -/
structure Env where
  newClientTLS : Option Err
  dial : Option Err
  capabilities : Option Err
  arbitration : Arbitration
  setFwdPipe : Option Err
  enableDigest : Option Err
  getLinksBytes : Uint64 → List Link
  insertTableEntry : Nat → Link → Option Err

/-! ## `addTableEntry` and `addConfig` -/

/-- Source `addTableEntry`, as the `n`-th installation of an `addConfig` call. -/
def addTableEntry (env : Env) (n : Nat) (link : Link) (w : World) : Exec Unit :=
  let w := w.emit (.insertTableEntry link.ip link.mac link.port)
  match env.insertTableEntry n link with
  | some err => sendErrCh err w
  | none => .ret () w

/-- The `for` loop of `addConfig`, from the `n`-th link on. -/
def addConfigLoop (env : Env) : Nat → List Link → World → Exec Unit
  | _, [], w => .ret () w
  | n, link :: rest, w =>
    match addTableEntry env n link w with
    | .ret () w => addConfigLoop env (n + 1) rest w
    | other => other

/-- Source `addConfig`. -/
def addConfig (env : Env) (w : World) : Exec Unit :=
  addConfigLoop env 0 (env.getLinksBytes w.sw.id) w

/-! ## `runSwitch` -/

/-- Source `runSwitch`. -/
def runSwitch (env : Env) (w : World) : Exec (Option Err) :=
  let w := w.emit .newClientTLS
  match env.newClientTLS with
  | some err => .ret (some err) w
  | none =>
    let w := w.emit (.dial w.sw.addr)
    match env.dial with
    | some err => .ret (some err) w
    | none =>
      let w := w.emit .capabilities
      match env.capabilities with
      | some err => .ret (some err) w
      | none =>
        let w := w.emit .goRun
        match env.arbitration with
        | .silent => .blocked w
        | .signal false => .ret (some "we are not the primary client") w
        | _ =>
          let w := w.emit (.setFwdPipe w.sw.binBytes w.sw.p4infoBytes 0)
          match env.setFwdPipe with
          | some err => .ret (some err) w
          | none =>
            let w := w.emit (.enableDigest digestName)
            match env.enableDigest with
            | some _ => .ret (some ("cannot enable digest " ++ digestName)) w
            | none =>
              let w : World := { w with sw := { w.sw with errCh := some (Chan.make 1) } }
              match addConfig env w with
              | .ret () w =>
                .ret none ((w.emit .goHandleStreamMessages).emit .goStartRunner)
              | .blocked w => .blocked w
              | .panic p w => .panic p w

/-! ## `startRunner` -/

/-- The communications of the `select` of `startRunner`; the `errCh` case carries the
fault it would receive and the channel it would leave. -/
inductive SelectCase where
  | ticker
  | errCh (err : Err) (rest : Chan Err)
  | ctxDone
  deriving DecidableEq, Repr

/-- What the rest of the program presents at one evaluation of the `select`: whether a
tick is waiting, whether the context is cancelled, and the run-time's pseudo-random
pick among the communications that can proceed. -/
structure Instant where
  tick : Bool
  ctxDone : Bool
  pick : Nat

/-- The communications of the `select` that can proceed, in source order. -/
def readyCases (tick : Bool) (errCh : Option (Chan Err)) (ctxDone : Bool) :
    List SelectCase :=
  (if tick then [SelectCase.ticker] else [])
    ++ (match errCh.bind Chan.tryRecv with
        | some (err, rest) => [SelectCase.errCh err rest]
        | none => [])
    ++ (if ctxDone then [SelectCase.ctxDone] else [])

/-- Go `select` without a default case: one of the communications that can proceed is
chosen by the run-time, and none when no communication can proceed. -/
def select (ready : List SelectCase) (pick : Nat) : Option SelectCase :=
  ready[pick % ready.length]?

/-- Source `startRunner`, over the successive evaluations of its `select`. The deferred
function closes `messageCh` on return. With no evaluation left the loop is still
waiting. -/
def startRunner : List Instant → World → Exec Unit
  | [], w => .blocked w
  | i :: later, w =>
    match select (readyCases i.tick w.sw.errCh i.ctxDone) i.pick with
    | none => startRunner later w
    | some .ticker => startRunner later w
    | some (.errCh _ rest) =>
      let w : World := { w with sw := { w.sw with errCh := some rest } }
      .ret () ((w.emit .goReconnect).emit .closeMessageCh)
    | some .ctxDone => .ret () (w.emit .closeMessageCh)

/-! ## `reconnect` -/

/-- Source `reconnect`, with the number of attempts still allowed as the recursion
argument: `left` is `maxRetry - sw.restarts`, so at `left = 0` the entry test
`sw.restarts >= maxRetry` holds. `envs n` is the environment of the `n`-th `runSwitch`
call of the session (counted from 0). -/
def reconnectLoop (maxRetry : Int) (envs : Nat → Env) : Nat → World → Exec Unit
  | 0, w => .ret () w
  | left + 1, w =>
    if w.sw.restarts ≥ maxRetry then
      .ret () w
    else
      let w : World := { w with sw := { w.sw with restarts := w.sw.restarts + 1 } }
      match runSwitch (envs w.runSwitchCalls) w with
      | .ret (some _) w => reconnectLoop maxRetry envs left w
      | .ret none w => .ret () { w with sw := { w.sw with restarts := 0 } }
      | .blocked w => .blocked w
      | .panic p w => .panic p w

/-- Source `reconnect`. -/
def reconnect (maxRetry : Int) (envs : Nat → Env) (w : World) : Exec Unit :=
  reconnectLoop maxRetry envs (maxRetry - w.sw.restarts).toNat w

/-! ## Specification-side notions -/

/-- The log events `handleDigest` emits for the entries that decode, in order. -/
def decodedLog (data : List P4Data) : List Event :=
  data.filterMap fun d =>
    match digestFields d with
    | .ok (flow, flowOpp, t) => some (.logDigest flow flowOpp t)
    | .error _ => none

/-- A digest entry as the data model describes it: a struct of three bitstrings, the
third of one or two bytes. -/
def WellFormedEntry (d : P4Data) : Prop :=
  ∃ flow flowOpp t, d = .struct [.bitstring flow, .bitstring flowOpp, .bitstring t]
    ∧ (t.length = 1 ∨ t.length = 2)

/-- The event of one `InsertTableEntry` call. -/
def insertEvent (link : Link) : Event := .insertTableEntry link.ip link.mac link.port

/-! ## Example inputs -/

def link1 : Link := ⟨[10, 0, 0, 1], [0, 0, 0, 0, 0, 1], [1]⟩

def link2 : Link := ⟨[10, 0, 0, 2], [0, 0, 0, 0, 0, 2], [2]⟩

def link3 : Link := ⟨[10, 0, 0, 3], [0, 0, 0, 0, 0, 3], [3]⟩

/-- An environment in which the setup succeeds, arbitration is won, three links are
configured, and only the installation number `k` fails. -/
def envInstallFails (k : Nat) : Env :=
  { newClientTLS := none
    dial := none
    capabilities := none
    arbitration := .signal true
    setFwdPipe := none
    enableDigest := none
    getLinksBytes := fun _ => [link1, link2, link3]
    insertTableEntry := fun n _ => if n = k then some "insert failed" else none }

/-- An environment in which the certificate cannot be loaded. -/
def envNoCert : Env :=
  { envInstallFails 3 with newClientTLS := some "open /tmp/cert.pem: no such file" }

/-- An environment in which the controller loses arbitration. -/
def envNotPrimary : Env := { envInstallFails 3 with arbitration := .signal false }

/-- The switch of device 3 before its first connection. -/
def world0 : World := ⟨createSwitch 3 [] [] 3, []⟩

/-- The switch of device 3 with a fresh fault channel, as `runSwitch` has it when it
calls `addConfig`. -/
def worldFresh : World := ⟨{ createSwitch 3 [] [] 3 with errCh := some (Chan.make 1) }, []⟩

/-! ## Lemmas: threshold decoding -/

theorem Uint16_pair (hi lo : Byte) : Uint16 [hi, lo] = .ok (hi.val * 256 + lo.val) := by
  have h1 := hi.isLt
  have h2 := lo.isLt
  have h3 : 2 ^ 8 * hi.val + lo.val = 2 ^ 8 * hi.val ||| lo.val :=
    Nat.mul_add_lt_is_or (by norm_num) hi.val
  simp only [Uint16, Nat.shiftLeft_eq]
  rw [Nat.mod_eq_of_lt (by omega : lo.val < 65536),
    Nat.mod_eq_of_lt (by omega : hi.val < 65536),
    Nat.mod_eq_of_lt (by omega : hi.val * 2 ^ 8 < 65536), Nat.lor_comm, Nat.mul_comm, ← h3]
  norm_num
  omega

theorem Uint16_cons_cons (t0 t1 : Byte) (trailing : List Byte) :
    Uint16 (t0 :: t1 :: trailing) = Uint16 [t0, t1] := rfl

theorem treshold_single (b : Byte) : treshold [b] = .ok b.val := by
  have h : treshold [b] = Uint16 [0, b] := by simp [treshold]
  rw [h, Uint16_pair]
  simp

theorem treshold_cons_cons (t0 t1 : Byte) (trailing : List Byte) :
    treshold (t0 :: t1 :: trailing) = .ok (t0.val * 256 + t1.val) := by
  have h : treshold (t0 :: t1 :: trailing) = Uint16 (t0 :: t1 :: trailing) := by
    simp [treshold]
  rw [h, Uint16_cons_cons, Uint16_pair]

theorem treshold_nil : treshold [] = .error .indexOutOfRange := by
  simp [treshold, Uint16]

theorem digestFields_struct3 (flow flowOpp t : List Byte) :
    digestFields (.struct [.bitstring flow, .bitstring flowOpp, .bitstring t])
      = match treshold t with
        | .error p => .error p
        | .ok v => .ok (flow, flowOpp, v) := by
  simp only [digestFields, P4Data.GetStruct, index, P4Data.GetBitstring]
  rfl

theorem WellFormedEntry.decodes {d : P4Data} (h : WellFormedEntry d) :
    ∃ r, digestFields d = .ok r := by
  obtain ⟨flow, flowOpp, t, rfl, ht⟩ := h
  rw [digestFields_struct3]
  rcases ht with ht | ht
  · match t, ht with
    | [b], _ => exact ⟨_, by rw [treshold_single]⟩
  · match t, ht with
    | [hi, lo], _ => exact ⟨_, by rw [treshold_cons_cons]⟩

/-! ## Lemmas: the digest loop -/

theorem decodedLog_cons_ok {d : P4Data} {r : List Byte × List Byte × Nat}
    (h : digestFields d = .ok r) (rest : List P4Data) :
    decodedLog (d :: rest) = .logDigest r.1 r.2.1 r.2.2 :: decodedLog rest := by
  simp [decodedLog, List.filterMap_cons, h]

theorem handleDigestLoop_ok (data : List P4Data) (w : World)
    (h : ∀ d ∈ data, ∃ r, digestFields d = .ok r) :
    handleDigestLoop data w = .ret () { w with trace := w.trace ++ decodedLog data }
      ∧ (decodedLog data).length = data.length := by
  induction data generalizing w with
  | nil => simp [handleDigestLoop, decodedLog]
  | cons d rest ih =>
    obtain ⟨r, hr⟩ := h d (List.mem_cons_self _ _)
    have hrest : ∀ e ∈ rest, ∃ r, digestFields e = .ok r :=
      fun e he => h e (List.mem_cons_of_mem _ he)
    obtain ⟨flow, flowOpp, t⟩ := r
    have ih1 := ih (w.emit (.logDigest flow flowOpp t)) hrest
    simp only [World.emit, List.append_assoc, List.singleton_append] at ih1
    rw [decodedLog_cons_ok hr]
    simp only [handleDigestLoop, hr, World.emit, ih1.1, List.length_cons, ih1.2, and_self]

theorem handleDigestLoop_panics (data : List P4Data) (w : World) (d : P4Data) (p : Panic)
    (hd : d ∈ data) (hp : digestFields d = .error p) :
    ∃ q w', handleDigestLoop data w = .panic q w'
      ∧ w'.trace.countP Event.isAckDigestList = w.trace.countP Event.isAckDigestList := by
  induction data generalizing w with
  | nil => simp at hd
  | cons e rest ih =>
    cases he : digestFields e with
    | error q => exact ⟨q, w, by simp [handleDigestLoop, he], rfl⟩
    | ok r =>
      obtain ⟨flow, flowOpp, t⟩ := r
      have hd1 : d ∈ rest := by
        rcases List.mem_cons.mp hd with h | h
        · rw [h, he] at hp
          cases hp
        · exact h
      obtain ⟨q, w', h1, h2⟩ := ih (w.emit (.logDigest flow flowOpp t)) hd1
      refine ⟨q, w', by simp [handleDigestLoop, he, h1], ?_⟩
      rw [h2]
      simp [World.emit, List.countP_append, Event.isAckDigestList]

/-! ## Digest decoding and acknowledgement -/

/-- C1: in `handleDigest` a threshold of one byte `[b]` is decoded as `b`, and a
threshold of two bytes `[hi, lo]` as `hi * 256 + lo`, the unsigned big-endian value; this is
the value the loop logs for the entry. `[0x05]` gives 5 and `[0x01, 0x00]` gives 256. -/
theorem treshold_big_endian :
    (∀ b : Byte, treshold [b] = .ok b.val)
    ∧ (∀ hi lo : Byte, treshold [hi, lo] = .ok (hi.val * 256 + lo.val))
    ∧ (∀ (flow flowOpp : List Byte) (b : Byte) (w : World),
        handleDigestLoop [.struct [.bitstring flow, .bitstring flowOpp, .bitstring [b]]] w
          = .ret () (w.emit (.logDigest flow flowOpp b.val)))
    ∧ (∀ (flow flowOpp : List Byte) (hi lo : Byte) (w : World),
        handleDigestLoop [.struct [.bitstring flow, .bitstring flowOpp, .bitstring [hi, lo]]] w
          = .ret () (w.emit (.logDigest flow flowOpp (hi.val * 256 + lo.val))))
    ∧ treshold [0x05] = .ok 5
    ∧ treshold [0x01, 0x00] = .ok 256 := by
  refine ⟨treshold_single, fun hi lo => treshold_cons_cons hi lo [], ?_, ?_, ?_, ?_⟩
  · intro flow flowOpp b w
    simp [handleDigestLoop, digestFields_struct3, treshold_single]
  · intro flow flowOpp hi lo w
    simp [handleDigestLoop, digestFields_struct3, treshold_cons_cons]
  · exact treshold_single 5
  · exact treshold_cons_cons 1 0 []

/-- C10: a threshold whose length is not 1 takes the two-byte path on its leading bytes.
With at least two bytes the decoded value is `t0 * 256 + t1` whatever follows; the empty
threshold makes the decoding panic (index out of range); and a list with an entry whose
threshold is empty makes `handleDigest` panic without any call of `AckDigestList`. -/
theorem treshold_other_lengths :
    (∀ (t0 t1 : Byte) (trailing : List Byte),
        treshold (t0 :: t1 :: trailing) = .ok (t0.val * 256 + t1.val))
    ∧ treshold [] = .error .indexOutOfRange
    ∧ (∀ (ackDigestList : DigestList → Option Err) (dl : DigestList) (w : World)
        (members : List P4Data),
        P4Data.struct members ∈ dl.data →
        (members[2]?).map P4Data.GetBitstring = some [] →
        ∃ p w', handleDigest ackDigestList dl w = .panic p w'
          ∧ w'.trace.countP Event.isAckDigestList
              = w.trace.countP Event.isAckDigestList) := by
  refine ⟨treshold_cons_cons, treshold_nil, ?_⟩
  intro ack dl w members hmem h2
  have hp : ∃ p, digestFields (.struct members) = .error p := by
    match members, h2 with
    | [], h2 => simp at h2
    | [_], h2 => simp at h2
    | [_, _], h2 => simp at h2
    | m0 :: m1 :: m2 :: more, h2 =>
      have h3 : m2.GetBitstring = [] := by simpa using h2
      exact ⟨.indexOutOfRange, by
        simp [digestFields, P4Data.GetStruct, index, h3, treshold_nil]⟩
  obtain ⟨p, hp⟩ := hp
  obtain ⟨q, w', h1, h2⟩ := handleDigestLoop_panics dl.data w _ p hmem hp
  exact ⟨q, w', by simp [handleDigest, h1], h2⟩

/-- Witness of C10: a list whose only entry has an empty threshold. -/
theorem treshold_other_lengths_witness :
    ∃ p w', handleDigest (fun _ => none)
        ⟨1, 1, [.struct [.bitstring [1], .bitstring [2], .bitstring []]]⟩
        ⟨createSwitch 3 [] [] 3, []⟩ = .panic p w'
      ∧ w'.trace.countP Event.isAckDigestList
          = (World.mk (createSwitch 3 [] [] 3) []).trace.countP Event.isAckDigestList :=
  treshold_other_lengths.2.2 (fun _ => none)
    ⟨1, 1, [.struct [.bitstring [1], .bitstring [2], .bitstring []]]⟩
    ⟨createSwitch 3 [] [] 3, []⟩ [.bitstring [1], .bitstring [2], .bitstring []]
    (List.mem_singleton.mpr rfl) rfl

theorem handleDigest_of_wellFormed (ackDigestList : DigestList → Option Err) (dl : DigestList)
    (w : World) (hwf : ∀ d ∈ dl.data, WellFormedEntry d) :
    (decodedLog dl.data).length = dl.data.length
    ∧ (handleDigest ackDigestList dl w).world.trace
        = w.trace ++ decodedLog dl.data ++ [.ackDigestList dl]
            ++ (match ackDigestList dl with
                | some err => [.sendErrCh err]
                | none => [])
    ∧ (handleDigest ackDigestList dl w).world.trace.countP Event.isAckDigestList
        = w.trace.countP Event.isAckDigestList + 1
    ∧ (ackDigestList dl = none →
        handleDigest ackDigestList dl w
          = .ret () { w with trace := w.trace ++ decodedLog dl.data ++ [.ackDigestList dl] })
    ∧ (∀ err, ackDigestList dl = some err →
        handleDigest ackDigestList dl w
          = sendErrCh err
              { w with trace := w.trace ++ decodedLog dl.data ++ [.ackDigestList dl] })
    ∧ (∀ err, ackDigestList dl = some err → w.sw.errCh = some (Chan.make 1) →
        (handleDigest ackDigestList dl w).returned = true
          ∧ (handleDigest ackDigestList dl w).world.sw.errCh = some ⟨1, [err]⟩) := by
  obtain ⟨hloop, hlen⟩ := handleDigestLoop_ok dl.data w (fun d hd => (hwf d hd).decodes)
  have hlog : (decodedLog dl.data).countP Event.isAckDigestList = 0 := by
    rw [List.countP_eq_zero]
    intro ev hev
    simp only [decodedLog, List.mem_filterMap] at hev
    obtain ⟨d, -, hd⟩ := hev
    split at hd
    · cases hd
      simp [Event.isAckDigestList]
    · cases hd
  cases hack : ackDigestList dl with
  | none =>
    simp [handleDigest, hloop, hack, Exec.world, World.emit, hlen, List.countP_append, hlog,
      Event.isAckDigestList]
  | some err =>
    refine ⟨hlen, ?_, ?_, by simp, ?_, ?_⟩
    · simp only [handleDigest, hloop, hack, sendErrCh, World.emit]
      split <;> [skip; split] <;> simp [Exec.world]
    · simp only [handleDigest, hloop, hack, sendErrCh, World.emit]
      split <;> [skip; split] <;>
        simp [Exec.world, List.countP_append, hlog, Event.isAckDigestList]
    · intro e he
      cases he
      simp [handleDigest, hloop, hack, World.emit]
    · intro e he hch
      cases he
      simp [handleDigest, hloop, hack, sendErrCh, World.emit, hch, Chan.trySend, Chan.make,
        Exec.returned, Exec.world]

/-- C7: for a list whose entries are all well formed, `handleDigest` decodes every entry,
then calls `AckDigestList` on the list exactly once (also for the empty list); when the
acknowledgement fails, the error is sent on `errCh`, which then holds it when it had room. -/
theorem handleDigest_acks_once (ackDigestList : DigestList → Option Err) (dl : DigestList)
    (w : World) (hwf : ∀ d ∈ dl.data, WellFormedEntry d) :
    (decodedLog dl.data).length = dl.data.length
    ∧ (handleDigest ackDigestList dl w).world.trace
        = w.trace ++ decodedLog dl.data ++ [.ackDigestList dl]
            ++ (match ackDigestList dl with
                | some err => [.sendErrCh err]
                | none => [])
    ∧ (handleDigest ackDigestList dl w).world.trace.countP Event.isAckDigestList
        = w.trace.countP Event.isAckDigestList + 1
    ∧ (ackDigestList dl = none →
        handleDigest ackDigestList dl w
          = .ret () { w with trace := w.trace ++ decodedLog dl.data ++ [.ackDigestList dl] })
    ∧ (∀ err, ackDigestList dl = some err →
        handleDigest ackDigestList dl w
          = sendErrCh err
              { w with trace := w.trace ++ decodedLog dl.data ++ [.ackDigestList dl] })
    ∧ (∀ err, ackDigestList dl = some err → w.sw.errCh = some (Chan.make 1) →
        (handleDigest ackDigestList dl w).returned = true
          ∧ (handleDigest ackDigestList dl w).world.sw.errCh = some ⟨1, [err]⟩) :=
  handleDigest_of_wellFormed ackDigestList dl w hwf

/-- Witness of C7: a list of two well-formed entries whose acknowledgement fails. -/
theorem handleDigest_acks_once_witness :
    (handleDigest (fun _ => some "ack failed")
        ⟨1, 7, [.struct [.bitstring [1], .bitstring [2], .bitstring [5]],
                .struct [.bitstring [3], .bitstring [4], .bitstring [1, 0]]]⟩
        ⟨{ createSwitch 3 [] [] 3 with errCh := some (Chan.make 1) }, []⟩).world.trace.countP
          Event.isAckDigestList = 0 + 1 :=
  (handleDigest_acks_once (fun _ => some "ack failed")
    ⟨1, 7, [.struct [.bitstring [1], .bitstring [2], .bitstring [5]],
            .struct [.bitstring [3], .bitstring [4], .bitstring [1, 0]]]⟩
    ⟨{ createSwitch 3 [] [] 3 with errCh := some (Chan.make 1) }, []⟩
    (by
      intro d hd
      simp only [List.mem_cons, List.mem_singleton, List.not_mem_nil, or_false] at hd
      rcases hd with rfl | rfl
      · exact ⟨[1], [2], [5], rfl, Or.inl rfl⟩
      · exact ⟨[3], [4], [1, 0], rfl, Or.inr rfl⟩)).2.2.1

/-! ## `createSwitch` -/

/-- C8, as stated, fails: for the device identifier `2 ^ 64 - 1` the `uint64` sum
`defaultPort+deviceID` wraps, and the address carries port 50049, not the decimal
rendering of `50050 + d`. -/
theorem createSwitch_addr_wraps :
    (createSwitch ⟨18446744073709551615, by norm_num⟩ [] [] 3).addr = "127.0.0.1:50049"
    ∧ (createSwitch ⟨18446744073709551615, by norm_num⟩ [] [] 3).addr
        ≠ "127.0.0.1" ++ ":" ++ Nat.repr (50050 + 18446744073709551615) := by
  constructor <;> decide

/-- C8, amended: `createSwitch` sets the address to `"127.0.0.1"`, a colon and the decimal
rendering of `(50050 + d) mod 2 ^ 64`, which is `50050 + d` for every `d` below
`2 ^ 64 - 50050` (`d = 3` gives `"127.0.0.1:50053"`), and sets the restart counter to 0. -/
theorem createSwitch_addr (d : Uint64) (binBytes p4infoBytes : List Byte) (ports : Int) :
    (createSwitch d binBytes p4infoBytes ports).addr
        = "127.0.0.1" ++ ":" ++ Nat.repr ((50050 + d.val) % 2 ^ 64)
    ∧ (d.val < 2 ^ 64 - 50050 →
        (createSwitch d binBytes p4infoBytes ports).addr
          = "127.0.0.1" ++ ":" ++ Nat.repr (50050 + d.val))
    ∧ (createSwitch d binBytes p4infoBytes ports).restarts = 0
    ∧ (createSwitch 3 binBytes p4infoBytes ports).addr = "127.0.0.1:50053" := by
  refine ⟨rfl, ?_, rfl, ?_⟩
  swap
  · show sprintfAddr defaultAddr ((defaultPort + (3 : Uint64).val) % 18446744073709551616)
      = "127.0.0.1:50053"
    decide
  intro h
  have h1 : (50050 + d.val) % 18446744073709551616 = 50050 + d.val :=
    Nat.mod_eq_of_lt (by norm_num at h; omega)
  simp only [createSwitch, sprintfAddr, defaultAddr, defaultPort, h1]

/-- Witness of C8 amended, at device identifier 3. -/
theorem createSwitch_addr_witness :
    (createSwitch 3 [] [] 3).addr = "127.0.0.1" ++ ":" ++ Nat.repr (50050 + 3) :=
  (createSwitch_addr 3 [] [] 3).2.1 (by decide)

/-! ## Lemmas: reporting a fault -/

theorem sendErrCh_full (err held : Err) (w : World) (h : w.sw.errCh = some ⟨1, [held]⟩) :
    sendErrCh err w = .blocked (w.emit (.sendErrCh err)) := by
  simp [sendErrCh, World.emit, h, Chan.trySend]

theorem sendErrCh_empty (err : Err) (w : World) (h : w.sw.errCh = some (Chan.make 1)) :
    sendErrCh err w
      = .ret () { sw := { w.sw with errCh := some ⟨1, [err]⟩ },
                  trace := w.trace ++ [.sendErrCh err] } := by
  simp [sendErrCh, World.emit, h, Chan.trySend, Chan.make]

theorem sendErrCh_trace (err : Err) (w : World) :
    (sendErrCh err w).world.trace = w.trace ++ [.sendErrCh err] := by
  simp only [sendErrCh, World.emit]
  split <;> [skip; split] <;> simp [Exec.world]

theorem sendErrCh_restarts (err : Err) (w : World) :
    (sendErrCh err w).world.sw.restarts = w.sw.restarts := by
  simp only [sendErrCh, World.emit]
  split <;> [skip; split] <;> simp [Exec.world]

/-! ## The fault channel -/

/-- C5, as stated, fails: with a fault already held in the single-slot `errCh`, the report
of a `StreamError`, of a failed acknowledgement and of a failed installation each leave
the reporter parked at the send instead of returning. -/
theorem report_blocks_example :
    (handleStreamMessages (fun _ => none) [.error "reset"]
        ⟨{ createSwitch 3 [] [] 3 with errCh := some ⟨1, ["first"]⟩ }, []⟩).returned = false
    ∧ (handleDigest (fun _ => some "ack failed") ⟨1, 1, []⟩
        ⟨{ createSwitch 3 [] [] 3 with errCh := some ⟨1, ["first"]⟩ }, []⟩).returned = false
    ∧ (addTableEntry ⟨none, none, none, .signal true, none, none, fun _ => [],
          fun _ _ => some "insert failed"⟩ 0 ⟨[10, 0, 0, 1], [0, 0, 0, 0, 0, 1], [1]⟩
        ⟨{ createSwitch 3 [] [] 3 with errCh := some ⟨1, ["first"]⟩ }, []⟩).returned = false := by
  refine ⟨rfl, rfl, rfl⟩

/-- C5, amended: a report completes at once only when `errCh` is empty, and `errCh` then
holds it. When the single-slot `errCh` already holds an undelivered fault, a report by any
of the three reporters (a `StreamError` in `handleStreamMessages`, an acknowledgement
failure in `handleDigest`, an install failure in `addTableEntry`) does not complete: the
reporter stays parked at the send with the held fault unchanged, and the send can proceed
only once the held fault has been received, the new report then being stored, not
dropped. -/
theorem report_blocks_when_full (w : World) (held : Err)
    (hfull : w.sw.errCh = some ⟨1, [held]⟩) :
    (∀ (ack : DigestList → Option Err) (e : String) (later : List StreamMessage),
        (handleStreamMessages ack (.error e :: later) w).returned = false
        ∧ (handleStreamMessages ack (.error e :: later) w).world.sw.errCh
            = some ⟨1, [held]⟩)
    ∧ (∀ (ack : DigestList → Option Err) (dl : DigestList) (err : Err),
        (∀ d ∈ dl.data, WellFormedEntry d) → ack dl = some err →
        (handleDigest ack dl w).returned = false
        ∧ (handleDigest ack dl w).world.sw.errCh = some ⟨1, [held]⟩)
    ∧ (∀ (env : Env) (n : Nat) (link : Link) (err : Err),
        env.insertTableEntry n link = some err →
        (addTableEntry env n link w).returned = false
        ∧ (addTableEntry env n link w).world.sw.errCh = some ⟨1, [held]⟩)
    ∧ (∀ (ack : DigestList → Option Err) (e : String),
        handleStreamMessage ack (.error e)
            { w with sw := { w.sw with errCh := some (Chan.make 1) } }
          = .ret () { sw := { w.sw with errCh := some ⟨1, ["StreamError: " ++ e]⟩ },
                      trace := w.trace ++ [.sendErrCh ("StreamError: " ++ e)] })
    ∧ (∀ (env : Env) (n : Nat) (link : Link) (err : Err),
        env.insertTableEntry n link = some err →
        addTableEntry env n link { w with sw := { w.sw with errCh := some (Chan.make 1) } }
          = .ret () { sw := { w.sw with errCh := some ⟨1, [err]⟩ },
                      trace := w.trace ++ [.insertTableEntry link.ip link.mac link.port,
                        .sendErrCh err] })
    ∧ (∀ err : Err, (⟨1, [held]⟩ : Chan Err).trySend err = none
        ∧ (Chan.tryRecv (⟨1, [held]⟩ : Chan Err)).bind (fun r => r.2.trySend err)
            = some ⟨1, [err]⟩) := by
  refine ⟨?_, ?_, ?_, ?_, ?_, fun err => ⟨rfl, rfl⟩⟩
  · intro ack e later
    simp [handleStreamMessages, handleStreamMessage, sendErrCh_full _ held w hfull,
      Exec.returned, Exec.world, World.emit, hfull]
  · intro ack dl err hwf hack
    have h := sendErrCh_full err held
      { sw := w.sw, trace := w.trace ++ decodedLog dl.data ++ [Event.ackDigestList dl] } hfull
    rw [(handleDigest_of_wellFormed ack dl w hwf).2.2.2.2.1 err hack, h]
    simp [Exec.returned, Exec.world, World.emit, hfull]
  · intro env n link err hins
    have h := sendErrCh_full err held
      (w.emit (.insertTableEntry link.ip link.mac link.port)) hfull
    simp only [addTableEntry, hins, h]
    simp [Exec.returned, Exec.world, World.emit, hfull]
  · intro ack e
    simp [handleStreamMessage, sendErrCh, World.emit, Chan.trySend, Chan.make]
  · intro env n link err hins
    simp [addTableEntry, hins, sendErrCh, World.emit, Chan.trySend, Chan.make]

/-- Witness of C5 amended: a session whose `errCh` holds the fault `"first"`. -/
theorem report_blocks_when_full_witness :
    (handleStreamMessages (fun _ => none) [.error "reset"]
        ⟨{ createSwitch 3 [] [] 3 with errCh := some ⟨1, ["first"]⟩ }, []⟩).returned = false :=
  ((report_blocks_when_full
    ⟨{ createSwitch 3 [] [] 3 with errCh := some ⟨1, ["first"]⟩ }, []⟩ "first" rfl).1
      (fun _ => none) "reset" []).1

/-! ## Lemmas: provisioning -/

theorem addTableEntry_ok (env : Env) (n : Nat) (link : Link) (w : World)
    (h : env.insertTableEntry n link = none) :
    addTableEntry env n link w = .ret () { w with trace := w.trace ++ [insertEvent link] } := by
  simp [addTableEntry, h, World.emit, insertEvent]

theorem addTableEntry_fail_empty (env : Env) (n : Nat) (link : Link) (w : World) (err : Err)
    (h : env.insertTableEntry n link = some err) (hch : w.sw.errCh = some (Chan.make 1)) :
    addTableEntry env n link w
      = .ret () { sw := { w.sw with errCh := some ⟨1, [err]⟩ },
                  trace := w.trace ++ [insertEvent link, .sendErrCh err] } := by
  simp [addTableEntry, h, sendErrCh, World.emit, hch, Chan.trySend, Chan.make, insertEvent]

theorem addTableEntry_world (env : Env) (n : Nat) (link : Link) (w : World) :
    ∃ sends, (addTableEntry env n link w).world.trace = w.trace ++ insertEvent link :: sends
      ∧ (∀ ev ∈ sends, ∃ e, ev = Event.sendErrCh e)
      ∧ (addTableEntry env n link w).world.sw.restarts = w.sw.restarts := by
  cases h : env.insertTableEntry n link with
  | none =>
    exact ⟨[], by simp [addTableEntry, h, Exec.world, World.emit, insertEvent], by simp,
      by simp [addTableEntry, h, Exec.world, World.emit]⟩
  | some err =>
    refine ⟨[.sendErrCh err], ?_, by simp, ?_⟩
    · simp [addTableEntry, h, sendErrCh_trace, World.emit, insertEvent]
    · simp [addTableEntry, h, sendErrCh_restarts, World.emit]

theorem addConfigLoop_append (env : Env) (n : Nat) (a b : List Link) (w : World) :
    addConfigLoop env n (a ++ b) w
      = match addConfigLoop env n a w with
        | .ret () w1 => addConfigLoop env (n + a.length) b w1
        | other => other := by
  induction a generalizing n w with
  | nil => simp [addConfigLoop]
  | cons link rest ih =>
    simp only [List.cons_append, addConfigLoop, List.length_cons]
    cases addTableEntry env n link w with
    | ret u w1 =>
      have h := ih (n + 1) w1
      rw [show n + 1 + rest.length = n + (rest.length + 1) by omega] at h
      exact h
    | blocked w1 => rfl
    | panic q w1 => rfl

theorem addConfigLoop_all_ok (env : Env) (n : Nat) (links : List Link) (w : World)
    (h : ∀ i l, links[i]? = some l → env.insertTableEntry (n + i) l = none) :
    addConfigLoop env n links w
      = .ret () { w with trace := w.trace ++ links.map insertEvent } := by
  induction links generalizing n w with
  | nil => simp [addConfigLoop]
  | cons link rest ih =>
    have h0 : env.insertTableEntry n link = none := by simpa using h 0 link
    have hrest : ∀ i l, rest[i]? = some l → env.insertTableEntry (n + 1 + i) l = none := by
      intro i l hl
      have := h (i + 1) l (by simpa using hl)
      rwa [show n + (i + 1) = n + 1 + i by omega] at this
    simp [addConfigLoop, addTableEntry_ok env n link w h0, ih (n + 1) _ hrest]

theorem addConfigLoop_world (env : Env) (n : Nat) (links : List Link) (w : World) :
    ∃ new k, (addConfigLoop env n links w).world.trace = w.trace ++ new
      ∧ (∀ ev ∈ new, ev.isInsertTableEntry = true ∨ ∃ e, ev = Event.sendErrCh e)
      ∧ (addConfigLoop env n links w).world.sw.restarts = w.sw.restarts
      ∧ k ≤ links.length
      ∧ (links ≠ [] → 1 ≤ k)
      ∧ new.filter Event.isInsertTableEntry = (links.take k).map insertEvent := by
  induction links generalizing n w with
  | nil => exact ⟨[], 0, by simp [addConfigLoop, Exec.world]⟩
  | cons link rest ih =>
    obtain ⟨sends, h1, h2, h3⟩ := addTableEntry_world env n link w
    have hsends : sends.filter Event.isInsertTableEntry = [] := by
      rw [List.filter_eq_nil_iff]
      intro ev hev
      obtain ⟨e, rfl⟩ := h2 ev hev
      simp [Event.isInsertTableEntry]
    have hmem : ∀ ev ∈ insertEvent link :: sends,
        ev.isInsertTableEntry = true ∨ ∃ e, ev = Event.sendErrCh e := by
      intro ev hev
      rcases List.mem_cons.mp hev with rfl | hev
      · exact Or.inl rfl
      · exact Or.inr (h2 ev hev)
    cases h : addTableEntry env n link w with
    | ret u w1 =>
      rw [h] at h1 h3
      simp only [Exec.world] at h1 h3
      obtain ⟨new, k, i1, i2, i3, i4, -, i6⟩ := ih (n + 1) w1
      refine ⟨insertEvent link :: sends ++ new, k + 1, ?_, ?_, ?_, by simpa using i4,
        by simp, ?_⟩
      · simp [addConfigLoop, h, i1, h1]
      · intro ev hev
        rcases List.mem_append.mp hev with hev | hev
        · exact hmem ev hev
        · exact i2 ev hev
      · simp [addConfigLoop, h, i3, h3]
      · simp [List.filter_append, List.filter_cons, insertEvent, Event.isInsertTableEntry,
          hsends, i6]
    | blocked w1 =>
      rw [h] at h1 h3
      simp only [Exec.world] at h1 h3
      exact ⟨insertEvent link :: sends, 1, by simp [addConfigLoop, h, Exec.world, h1], hmem,
        by simp [addConfigLoop, h, Exec.world, h3], by simp, by simp,
        by simp [List.filter_cons, insertEvent, Event.isInsertTableEntry, hsends]⟩
    | panic q w1 =>
      rw [h] at h1 h3
      simp only [Exec.world] at h1 h3
      exact ⟨insertEvent link :: sends, 1, by simp [addConfigLoop, h, Exec.world, h1], hmem,
        by simp [addConfigLoop, h, Exec.world, h3], by simp, by simp,
        by simp [List.filter_cons, insertEvent, Event.isInsertTableEntry, hsends]⟩

theorem addConfigLoop_after_first_failure (env : Env) (pre : List Link) (lj : Link)
    (later : List Link) (w : World) (err : Err) (hch : w.sw.errCh = some (Chan.make 1))
    (hpre : ∀ i l, pre[i]? = some l → env.insertTableEntry i l = none)
    (hfail : env.insertTableEntry pre.length lj = some err) :
    addConfigLoop env 0 (pre ++ lj :: later) w
      = addConfigLoop env (pre.length + 1) later
          { sw := { w.sw with errCh := some ⟨1, [err]⟩ },
            trace := w.trace ++ pre.map insertEvent ++ [insertEvent lj, .sendErrCh err] } := by
  have hpre0 : ∀ i l, pre[i]? = some l → env.insertTableEntry (0 + i) l = none := by
    intro i l hl
    simpa using hpre i l hl
  rw [addConfigLoop_append, addConfigLoop_all_ok env 0 pre w hpre0]
  have hcons := addTableEntry_fail_empty env (0 + pre.length) lj
    { w with trace := w.trace ++ pre.map insertEvent } err (by simpa using hfail) hch
  simp only [addConfigLoop, hcons]
  simp

theorem addConfig_after_first_failure (env : Env) (w : World) (links : List Link) (j : Nat)
    (err : Err) (hch : w.sw.errCh = some (Chan.make 1)) (hj : 1 ≤ j) (hjN : j < links.length)
    (hbefore : ∀ i l, i < j - 1 → links[i]? = some l → env.insertTableEntry i l = none)
    (hfail : ∀ l, links[j - 1]? = some l → env.insertTableEntry (j - 1) l = some err) :
    (∃ new k, (addConfigLoop env 0 links w).world.trace = w.trace ++ new
        ∧ j + 1 ≤ k
        ∧ new.filter Event.isInsertTableEntry = (links.take k).map insertEvent)
    ∧ ((∀ i l, i ≠ j - 1 → links[i]? = some l → env.insertTableEntry i l = none) →
        ∃ new, addConfigLoop env 0 links w
            = .ret () { sw := { w.sw with errCh := some ⟨1, [err]⟩ }, trace := w.trace ++ new }
          ∧ new.filter Event.isInsertTableEntry = links.map insertEvent) := by
  have hj1 : j - 1 < links.length := by omega
  have hsplit : links = links.take (j - 1) ++ links[j - 1] :: links.drop j := by
    have h1 := List.take_append_drop (j - 1) links
    have h2 := List.drop_eq_getElem_cons hj1
    rw [show j - 1 + 1 = j by omega] at h2
    rw [h2] at h1
    exact h1.symm
  have hlen : (links.take (j - 1)).length = j - 1 := by
    rw [List.length_take]
    omega
  have hlater : links.drop j ≠ [] := by
    intro h
    have := congrArg List.length h
    simp at this
    omega
  generalize hpre : links.take (j - 1) = pre at hsplit hlen
  generalize hlj : links[j - 1] = lj at hsplit
  generalize hlat : links.drop j = later at hsplit hlater
  have hget : links[j - 1]? = some lj := by
    rw [List.getElem?_eq_getElem hj1, hlj]
  have hpreok : ∀ i l, pre[i]? = some l → env.insertTableEntry i l = none := by
    intro i l hl
    have hi : i < pre.length := by
      by_contra hc
      rw [List.getElem?_eq_none (by omega)] at hl
      cases hl
    refine hbefore i l (by omega) ?_
    rw [hsplit, List.getElem?_append_left hi]
    exact hl
  have hfail1 : env.insertTableEntry pre.length lj = some err := by
    rw [hlen]
    exact hfail lj hget
  have hins : ∀ sends : List Event, (∀ ev ∈ sends, ∃ e, ev = Event.sendErrCh e) →
      sends.filter Event.isInsertTableEntry = [] := by
    intro sends h
    rw [List.filter_eq_nil_iff]
    intro ev hev
    obtain ⟨e, rfl⟩ := h ev hev
    simp [Event.isInsertTableEntry]
  have hmap : (pre.map insertEvent).filter Event.isInsertTableEntry = pre.map insertEvent := by
    rw [List.filter_eq_self]
    intro ev hev
    obtain ⟨l, -, rfl⟩ := List.mem_map.mp hev
    rfl
  have hrun := addConfigLoop_after_first_failure env pre lj later w err hch hpreok hfail1
  constructor
  · obtain ⟨new, k, i1, -, -, i4, i5, i6⟩ := addConfigLoop_world env (pre.length + 1) later
      { sw := { w.sw with errCh := some ⟨1, [err]⟩ },
        trace := w.trace ++ pre.map insertEvent ++ [insertEvent lj, .sendErrCh err] }
    have hk := i5 hlater
    refine ⟨pre.map insertEvent ++ [insertEvent lj, .sendErrCh err] ++ new, j + k, ?_,
      by omega, ?_⟩
    · rw [hsplit, hrun, i1]
      simp
    · rw [List.filter_append, List.filter_append, hmap, i6, hsplit]
      have htake : (pre ++ lj :: later).take (j + k) = pre ++ lj :: later.take k := by
        rw [List.take_append_eq_append_take, List.take_of_length_le (by omega), hlen,
          show j + k - (j - 1) = k + 1 by omega, List.take_succ_cons]
      rw [htake]
      simp [List.filter_cons, insertEvent, Event.isInsertTableEntry]
  · intro hothers
    have hlaterok : ∀ i l, later[i]? = some l →
        env.insertTableEntry (pre.length + 1 + i) l = none := by
      intro i l hl
      refine hothers (pre.length + 1 + i) l (by omega) ?_
      rw [hsplit, List.getElem?_append_right (by omega),
        show pre.length + 1 + i - pre.length = i + 1 by omega]
      simpa using hl
    refine ⟨pre.map insertEvent ++ [insertEvent lj, .sendErrCh err] ++ later.map insertEvent,
      ?_, ?_⟩
    · rw [hsplit, hrun, addConfigLoop_all_ok env _ later _ hlaterok]
      simp
    · have hmap2 : (later.map insertEvent).filter Event.isInsertTableEntry
          = later.map insertEvent := by
        rw [List.filter_eq_self]
        intro ev hev
        obtain ⟨l, -, rfl⟩ := List.mem_map.mp hev
        rfl
      rw [List.filter_append, List.filter_append, hmap, hmap2, hsplit]
      simp [List.filter_cons, insertEvent, Event.isInsertTableEntry]

/-! ## Provisioning -/

/-- C4, as stated, fails: with three links of which the first fails to install,
`addConfig` still calls `InsertTableEntry` for the second and the third. -/
theorem addConfig_not_fail_fast :
    (envInstallFails 0).insertTableEntry 0 link1 = some "insert failed"
    ∧ (addConfig (envInstallFails 0) worldFresh).world.trace
        = [insertEvent link1, .sendErrCh "insert failed", insertEvent link2,
            insertEvent link3] := by
  constructor <;> rfl

/-- C4, amended: `addTableEntry` reports a failed installation on `errCh` and returns to the
loop of `addConfig`, which goes on. When the `j`-th of `N` links (`1 ≤ j < N`) is the first
to fail in a call that starts with the fresh single-slot `errCh`, `InsertTableEntry` is
attempted for the first `k` links in order for some `k ≥ j + 1`, so link `j + 1` is
attempted; when no other installation fails it is attempted for all `N` links, and
`addConfig` returns with the fault of link `j` held in `errCh`. -/
theorem addConfig_continues_after_failure (env : Env) (w : World) (j : Nat) (err : Err)
    (hch : w.sw.errCh = some (Chan.make 1)) (hj : 1 ≤ j)
    (hjN : j < (env.getLinksBytes w.sw.id).length)
    (hbefore : ∀ i l, i < j - 1 → (env.getLinksBytes w.sw.id)[i]? = some l →
      env.insertTableEntry i l = none)
    (hfail : ∀ l, (env.getLinksBytes w.sw.id)[j - 1]? = some l →
      env.insertTableEntry (j - 1) l = some err) :
    (∃ new k, (addConfig env w).world.trace = w.trace ++ new
        ∧ j + 1 ≤ k
        ∧ new.filter Event.isInsertTableEntry
            = ((env.getLinksBytes w.sw.id).take k).map insertEvent)
    ∧ ((∀ i l, i ≠ j - 1 → (env.getLinksBytes w.sw.id)[i]? = some l →
          env.insertTableEntry i l = none) →
        ∃ new, addConfig env w
            = .ret () { sw := { w.sw with errCh := some ⟨1, [err]⟩ }, trace := w.trace ++ new }
          ∧ new.filter Event.isInsertTableEntry
              = (env.getLinksBytes w.sw.id).map insertEvent) :=
  addConfig_after_first_failure env w (env.getLinksBytes w.sw.id) j err hch hj hjN hbefore hfail

/-- Witness of C4 amended: three links, the second of which fails to install. -/
theorem addConfig_continues_after_failure_witness :
    ∃ new k, (addConfig (envInstallFails 1) worldFresh).world.trace = worldFresh.trace ++ new
      ∧ 2 + 1 ≤ k
      ∧ new.filter Event.isInsertTableEntry
          = (((envInstallFails 1).getLinksBytes worldFresh.sw.id).take k).map insertEvent :=
  (addConfig_continues_after_failure (envInstallFails 1) worldFresh 2 "insert failed" rfl
    (by decide) (by decide)
    (by
      intro i l hi _
      have h0 : i = 0 := by omega
      subst h0
      rfl)
    (by
      intro l _
      rfl)).1

/-! ## Arbitration -/

/-- C6: when credentials, dial and the capability query succeed and the first arbitration
signal is non-primary, `runSwitch` returns the error "we are not the primary client"
having only loaded the credentials, dialled, queried the capabilities and started the
client: it pushes no pipeline, enables no digest, installs no table entry and starts neither
the dispatcher nor the run loop, the only place from which a reconnection is started. -/
theorem runSwitch_not_primary (env : Env) (w : World) (hcreds : env.newClientTLS = none)
    (hdial : env.dial = none) (hcap : env.capabilities = none)
    (harb : env.arbitration = .signal false) :
    runSwitch env w
        = .ret (some "we are not the primary client")
            { w with trace := w.trace
                ++ [.newClientTLS, .dial w.sw.addr, .capabilities, .goRun] }
    ∧ ((runSwitch env w).world.trace.drop w.trace.length).any Event.isPostArbitration
        = false := by
  have h : runSwitch env w
      = .ret (some "we are not the primary client")
          { w with trace := w.trace
              ++ [.newClientTLS, .dial w.sw.addr, .capabilities, .goRun] } := by
    simp [runSwitch, hcreds, hdial, hcap, harb, World.emit]
  refine ⟨h, ?_⟩
  rw [h]
  simp [Exec.world, Event.isPostArbitration]

/-- Witness of C6: device 3 losing arbitration on its first connection. -/
theorem runSwitch_not_primary_witness :
    runSwitch envNotPrimary world0
      = .ret (some "we are not the primary client")
          { world0 with trace := world0.trace
              ++ [.newClientTLS, .dial world0.sw.addr, .capabilities, .goRun] } :=
  (runSwitch_not_primary envNotPrimary world0 rfl rfl rfl rfl).1

/-! ## Lemmas: `runSwitch` and the restart counter -/

theorem addConfig_world (env : Env) (w : World) :
    (addConfig env w).world.sw.restarts = w.sw.restarts
      ∧ (addConfig env w).world.runSwitchCalls = w.runSwitchCalls := by
  obtain ⟨new, k, h1, h2, h3, -, -, -⟩ := addConfigLoop_world env 0 (env.getLinksBytes w.sw.id) w
  refine ⟨h3, ?_⟩
  have hnew : new.countP Event.isNewClientTLS = 0 := by
    rw [List.countP_eq_zero]
    intro ev hev
    rcases h2 ev hev with h | ⟨e, rfl⟩
    · cases ev <;> simp_all [Event.isInsertTableEntry, Event.isNewClientTLS]
    · simp [Event.isNewClientTLS]
  simp only [World.runSwitchCalls, addConfig, h1, List.countP_append, hnew, Nat.add_zero]

theorem runSwitch_tail_world (env : Env) (w : World) :
    (match addConfig env w with
      | .ret () w1 =>
        (Exec.ret none ((w1.emit .goHandleStreamMessages).emit .goStartRunner) :
          Exec (Option Err))
      | .blocked w1 => .blocked w1
      | .panic p w1 => .panic p w1).world.sw.restarts = w.sw.restarts
    ∧ (match addConfig env w with
      | .ret () w1 =>
        (Exec.ret none ((w1.emit .goHandleStreamMessages).emit .goStartRunner) :
          Exec (Option Err))
      | .blocked w1 => .blocked w1
      | .panic p w1 => .panic p w1).world.runSwitchCalls = w.runSwitchCalls := by
  have h := addConfig_world env w
  cases hc : addConfig env w <;> rw [hc] at h <;>
    simpa [Exec.world, World.emit, World.runSwitchCalls, List.countP_append,
      Event.isNewClientTLS] using h

theorem runSwitch_world (env : Env) (w : World) :
    (runSwitch env w).world.sw.restarts = w.sw.restarts
      ∧ (runSwitch env w).world.runSwitchCalls = w.runSwitchCalls + 1 := by
  unfold runSwitch
  repeat' split
  all_goals first
    | (simp [Exec.world, World.emit, World.runSwitchCalls, List.countP_append,
        Event.isNewClientTLS]; done)
    | skip
  all_goals
    simp only []
    refine ⟨(runSwitch_tail_world env _).1.trans ?_, (runSwitch_tail_world env _).2.trans ?_⟩
    · simp [World.emit]
    · simp [World.emit, World.runSwitchCalls, List.countP_append, Event.isNewClientTLS]

theorem runSwitch_ret_world {env : Env} {w w1 : World} {r : Option Err}
    (h : runSwitch env w = .ret r w1) :
    w1.sw.restarts = w.sw.restarts ∧ w1.runSwitchCalls = w.runSwitchCalls + 1 := by
  have h1 := runSwitch_world env w
  rw [h] at h1
  exact h1

/-! ## Lemmas: `reconnect` -/

theorem reconnectLoop_enough (maxRetry : Int) (envs : Nat → Env) (left : Nat) (w : World)
    (h : (maxRetry - w.sw.restarts).toNat ≤ left) :
    reconnectLoop maxRetry envs left w = reconnect maxRetry envs w := by
  unfold reconnect
  induction left generalizing w with
  | zero =>
    have h0 : (maxRetry - w.sw.restarts).toNat = 0 := by omega
    rw [h0]
  | succ left ih =>
    by_cases hge : w.sw.restarts ≥ maxRetry
    · have h0 : (maxRetry - w.sw.restarts).toNat = 0 := by omega
      rw [h0]
      simp [reconnectLoop, hge]
    · obtain ⟨d, hd⟩ : ∃ d, (maxRetry - w.sw.restarts).toNat = d + 1 :=
        ⟨(maxRetry - w.sw.restarts).toNat - 1, by omega⟩
      rw [hd]
      simp only [reconnectLoop, hge, if_false]
      split
      · rename_i err w1 hrun
        have hw1 := (runSwitch_ret_world hrun).1
        simp only at hw1
        have hd1 : (maxRetry - w1.sw.restarts).toNat = d := by omega
        rw [ih w1 (by omega), hd1]
      · rfl
      · rfl
      · rfl

theorem reconnectLoop_all_fail (R : Int) (envs : Nat → Env) (left : Nat) (w : World)
    (hleft : w.sw.restarts + left = R)
    (hfail : ∀ i, i < left → ∀ v, ∃ err v1,
      runSwitch (envs (w.runSwitchCalls + i)) v = .ret (some err) v1) :
    ∃ w1, reconnectLoop R envs left w = .ret () w1
      ∧ w1.runSwitchCalls = w.runSwitchCalls + left ∧ w1.sw.restarts = R := by
  induction left generalizing w with
  | zero => exact ⟨w, rfl, rfl, by simpa using hleft⟩
  | succ left ih =>
    have hlt : ¬ w.sw.restarts ≥ R := by omega
    obtain ⟨err, v1, hrun⟩ := hfail 0 (by omega)
      { w with sw := { w.sw with restarts := w.sw.restarts + 1 } }
    obtain ⟨hr, hc⟩ := runSwitch_ret_world hrun
    simp only [World.runSwitchCalls] at hc
    have hc1 : v1.runSwitchCalls = w.runSwitchCalls + 1 := hc
    obtain ⟨w1, h1, h2, h3⟩ := ih v1 (by simp only at hr; omega) (by
      intro i hi v
      have := hfail (i + 1) (by omega) v
      rwa [hc1, show w.runSwitchCalls + 1 + i = w.runSwitchCalls + (i + 1) by omega])
    refine ⟨w1, ?_, by omega, h3⟩
    simp only [reconnectLoop, hlt, if_false]
    simp only [World.runSwitchCalls, Nat.add_zero] at hrun ⊢
    rw [hrun]
    exact h1

theorem reconnectLoop_success_after (R : Int) (envs : Nat → Env) (m left : Nat) (w : World)
    (hm : m < left) (hleft : w.sw.restarts + left = R)
    (hfail : ∀ i, i < m → ∀ v, ∃ err v1,
      runSwitch (envs (w.runSwitchCalls + i)) v = .ret (some err) v1)
    (hok : ∀ v, ∃ v1, runSwitch (envs (w.runSwitchCalls + m)) v = .ret none v1) :
    ∃ w1, reconnectLoop R envs left w = .ret () w1
      ∧ w1.runSwitchCalls = w.runSwitchCalls + m + 1 ∧ w1.sw.restarts = 0 := by
  induction m generalizing left w with
  | zero =>
    obtain ⟨left, rfl⟩ : ∃ l, left = l + 1 := ⟨left - 1, by omega⟩
    have hlt : ¬ w.sw.restarts ≥ R := by omega
    obtain ⟨v1, hrun⟩ := hok { w with sw := { w.sw with restarts := w.sw.restarts + 1 } }
    obtain ⟨-, hc⟩ := runSwitch_ret_world hrun
    have hc1 : v1.runSwitchCalls = w.runSwitchCalls + 1 := hc
    refine ⟨{ v1 with sw := { v1.sw with restarts := 0 } }, ?_, by
      simpa [World.runSwitchCalls] using hc1, rfl⟩
    simp only [reconnectLoop, hlt, if_false]
    simp only [World.runSwitchCalls, Nat.add_zero] at hrun ⊢
    rw [hrun]
  | succ m ih =>
    obtain ⟨left, rfl⟩ : ∃ l, left = l + 1 := ⟨left - 1, by omega⟩
    have hlt : ¬ w.sw.restarts ≥ R := by omega
    obtain ⟨err, v1, hrun⟩ := hfail 0 (by omega)
      { w with sw := { w.sw with restarts := w.sw.restarts + 1 } }
    obtain ⟨hr, hc⟩ := runSwitch_ret_world hrun
    have hc1 : v1.runSwitchCalls = w.runSwitchCalls + 1 := hc
    obtain ⟨w1, h1, h2, h3⟩ := ih left v1 (by omega) (by simp only at hr; omega)
      (by
        intro i hi v
        have := hfail (i + 1) (by omega) v
        rwa [hc1, show w.runSwitchCalls + 1 + i = w.runSwitchCalls + (i + 1) by omega])
      (by
        intro v
        have := hok v
        rwa [hc1, show w.runSwitchCalls + 1 + m = w.runSwitchCalls + (m + 1) by omega])
    refine ⟨w1, ?_, by omega, h3⟩
    simp only [reconnectLoop, hlt, if_false]
    simp only [World.runSwitchCalls, Nat.add_zero] at hrun ⊢
    rw [hrun]
    exact h1

/-! ## Reconnection -/

/-- C2: started with restart counter 0 and maximum retry count `R`, when each of the next
`R` calls of `runSwitch` fails, `reconnect` returns after exactly `R` calls of `runSwitch`
with the restart counter equal to `R`; with `R = 0` it returns at once, with no call. -/
theorem reconnect_gives_up (R : Nat) (envs : Nat → Env) (w : World)
    (h0 : w.sw.restarts = 0)
    (hfail : ∀ i, i < R → ∀ v, ∃ err v1,
      runSwitch (envs (w.runSwitchCalls + i)) v = .ret (some err) v1) :
    (∃ w1, reconnect R envs w = .ret () w1
        ∧ w1.runSwitchCalls = w.runSwitchCalls + R ∧ w1.sw.restarts = R)
    ∧ reconnect 0 envs w = .ret () w := by
  constructor
  · have hfuel : ((R : Int) - w.sw.restarts).toNat = R := by
      rw [h0]
      simp
    unfold reconnect
    rw [hfuel]
    exact reconnectLoop_all_fail R envs R w (by rw [h0]; simp) hfail
  · have hfuel : ((0 : Int) - w.sw.restarts).toNat = 0 := by
      rw [h0]
      rfl
    unfold reconnect
    rw [hfuel]
    rfl

/-- Witness of C2: three retries against a switch whose certificate is missing. -/
theorem reconnect_gives_up_witness :
    (∃ w1, reconnect (3 : Nat) (fun _ => envNoCert) world0 = .ret () w1
        ∧ w1.runSwitchCalls = world0.runSwitchCalls + 3 ∧ w1.sw.restarts = (3 : Nat))
    ∧ reconnect 0 (fun _ => envNoCert) world0 = .ret () world0 :=
  reconnect_gives_up 3 (fun _ => envNoCert) world0 rfl (fun _ _ _ => ⟨_, _, rfl⟩)

/-- C3: started with restart counter 0 and maximum retry count `R`, when `runSwitch` fails
on attempts `1 .. k - 1` and succeeds on attempt `k` (`1 ≤ k ≤ R`), `reconnect` returns
after exactly `k` calls of `runSwitch` with the restart counter reset to 0. -/
theorem reconnect_succeeds_at (R k : Nat) (envs : Nat → Env) (w : World)
    (hk1 : 1 ≤ k) (hkR : k ≤ R) (h0 : w.sw.restarts = 0)
    (hfail : ∀ i, i < k - 1 → ∀ v, ∃ err v1,
      runSwitch (envs (w.runSwitchCalls + i)) v = .ret (some err) v1)
    (hok : ∀ v, ∃ v1, runSwitch (envs (w.runSwitchCalls + (k - 1))) v = .ret none v1) :
    ∃ w1, reconnect R envs w = .ret () w1
      ∧ w1.runSwitchCalls = w.runSwitchCalls + k ∧ w1.sw.restarts = 0 := by
  have hfuel : ((R : Int) - w.sw.restarts).toNat = R := by
    rw [h0]
    simp
  unfold reconnect
  rw [hfuel]
  obtain ⟨w1, h1, h2, h3⟩ := reconnectLoop_success_after R envs (k - 1) R w (by omega)
    (by rw [h0]; simp) hfail hok
  exact ⟨w1, h1, by omega, h3⟩

/-- Witness of C3: three retries allowed, the certificate is back for the second. -/
theorem reconnect_succeeds_at_witness :
    ∃ w1, reconnect (3 : Nat) (fun n => if n = 1 then envInstallFails 3 else envNoCert) world0
        = .ret () w1
      ∧ w1.runSwitchCalls = world0.runSwitchCalls + 2 ∧ w1.sw.restarts = 0 :=
  reconnect_succeeds_at 3 2 (fun n => if n = 1 then envInstallFails 3 else envNoCert) world0
    (by decide) (by decide) rfl
    (by
      intro i hi v
      have h0 : i = 0 := by omega
      subst h0
      exact ⟨_, _, rfl⟩)
    (fun _ => ⟨_, rfl⟩)

/-! ## The run loop -/

/-- C9, as stated, fails: with the context cancelled and a fault held in `errCh`, both
communications can proceed, and when the `select` picks the fault the loop starts
`reconnect`. -/
theorem startRunner_fault_may_win :
    readyCases false (some ⟨1, ["stream reset"]⟩) true
        = [.errCh "stream reset" ⟨1, []⟩, .ctxDone]
    ∧ (startRunner [⟨false, true, 0⟩]
        ⟨{ createSwitch 3 [] [] 3 with errCh := some ⟨1, ["stream reset"]⟩ }, []⟩).world.trace
          = [.goReconnect, .closeMessageCh] := by
  constructor <;> rfl

/-- C9, amended: in an iteration of `startRunner` in which both the shutdown signal and a
fault on `errCh` are pending, the `select` takes one of the communications that can proceed,
with no precedence among them. When it takes the shutdown case the loop returns without
calling `reconnect`; when it takes the fault case the loop starts `reconnect` and returns;
and each of the two is taken for some pick of the run-time. -/
theorem startRunner_both_pending (w : World) (i : Instant) (later : List Instant) (err : Err)
    (rest : Chan Err) (hdone : i.ctxDone = true)
    (hfault : w.sw.errCh.bind Chan.tryRecv = some (err, rest)) :
    (select (readyCases i.tick w.sw.errCh i.ctxDone) i.pick = some .ctxDone →
        startRunner (i :: later) w = .ret () { w with trace := w.trace ++ [.closeMessageCh] })
    ∧ (select (readyCases i.tick w.sw.errCh i.ctxDone) i.pick = some (.errCh err rest) →
        startRunner (i :: later) w
          = .ret () { sw := { w.sw with errCh := some rest },
                      trace := w.trace ++ [.goReconnect, .closeMessageCh] })
    ∧ (∃ pick, select (readyCases i.tick w.sw.errCh i.ctxDone) pick = some .ctxDone)
    ∧ (∃ pick, select (readyCases i.tick w.sw.errCh i.ctxDone) pick
        = some (.errCh err rest)) := by
  refine ⟨?_, ?_, ?_, ?_⟩
  · intro h
    simp [startRunner, h, World.emit]
  · intro h
    simp [startRunner, h, World.emit]
  · cases ht : i.tick
    · exact ⟨1, by simp [select, readyCases, hfault, hdone]⟩
    · exact ⟨2, by simp [select, readyCases, hfault, hdone]⟩
  · cases ht : i.tick
    · exact ⟨0, by simp [select, readyCases, hfault, hdone]⟩
    · exact ⟨1, by simp [select, readyCases, hfault, hdone]⟩

/-- Witness of C9 amended: the context is cancelled while `errCh` holds a fault. -/
theorem startRunner_both_pending_witness :
    ∃ pick, select (readyCases false (some ⟨1, ["stream reset"]⟩) true) pick
      = some (.errCh "stream reset" ⟨1, []⟩) :=
  (startRunner_both_pending
    ⟨{ createSwitch 3 [] [] 3 with errCh := some ⟨1, ["stream reset"]⟩ }, []⟩
    ⟨false, true, 0⟩ [] "stream reset" ⟨1, []⟩ rfl rfl).2.2.2

end Controller
